import Mathlib

/-!
# Verification of the GPT-Vis SSR admission-control and supervision layer

Shallow embedding of `src/src/index.ts`: the `ConcurrencyGate` class
(lines 56–116), the `/render` request handler (lines 171–221), the
graceful-shutdown coordinator (lines 281–304), the cluster exit handler of
`bootstrap` (lines 388–402) and `normalizeOptions` (lines 306–335).

JavaScript numbers that the code only compares and increments/decrements
are embedded as `Int`; waiters queued inside the gate are identified by
`Nat` tokens recording arrival order.
-/

namespace GptVisSsr

/-! ## ConcurrencyGate (index.ts lines 56–116)

The gate's mutable fields `active` and `queue` form the state; the
configuration fields `maxActive` and `maxQueue` are passed explicitly.
A queued entry in the source is a closure that increments `active` and
resolves the waiter's promise; here a waiter is a `Nat` token, and the
increment that the closure performs is accounted for at the point where
`release` invokes the popped entry. -/

structure GateState where
  active : Int
  queue : List Nat
deriving DecidableEq, Repr

/-- The state of a freshly constructed gate: `active = 0`, empty queue. -/
def initState : GateState := ⟨0, []⟩

/-- Outcome of one `acquire()` call: returned without suspending,
suspended (the caller was appended to the queue), or threw
`ServiceBusyError` (the `ResourceExhausted` condition). -/
inductive AcquireResult where
  | immediate
  | suspended
  | busy
deriving DecidableEq, Repr

/-- `ConcurrencyGate.acquire` (index.ts lines 65–86), as a function from the
pre-state to the call's outcome and the post-state.  `w` is the token that
identifies this caller if it gets queued. -/
def acquire (maxActive maxQueue : Int) (s : GateState) (w : Nat) :
    AcquireResult × GateState :=
  if maxActive ≤ 0 then
    (.immediate, s)
  else if s.active < maxActive then
    (.immediate, { s with active := s.active + 1 })
  else if 0 ≤ maxQueue ∧ maxQueue ≤ (s.queue.length : Int) then
    (.busy, s)
  else
    (.suspended, { s with queue := s.queue ++ [w] })

/-- `ConcurrencyGate.release` (index.ts lines 88–101).  Returns the waiter
that was popped and resumed (if any) together with the post-state.  When a
waiter is popped, running its queued entry increments `active` again. -/
def release (maxActive : Int) (s : GateState) : Option Nat × GateState :=
  if maxActive ≤ 0 then
    (none, s)
  else
    let a := if 0 < s.active then s.active - 1 else s.active
    match s.queue with
    | [] => (none, { active := a, queue := [] })
    | w :: rest => (some w, { active := a + 1, queue := rest })

/-- `ConcurrencyGate.getQueueSize` (index.ts lines 103–108). -/
def getQueueSize (maxActive : Int) (s : GateState) : Nat :=
  if maxActive ≤ 0 then 0 else s.queue.length

/-- `ConcurrencyGate.getActiveCount` (index.ts lines 110–115). -/
def getActiveCount (maxActive : Int) (s : GateState) : Int :=
  if maxActive ≤ 0 then 0 else s.active

/-- One externally triggered gate operation: an `acquire()` call by waiter
token `w`, or a `release()` call. -/
inductive GateOp where
  | acq (w : Nat)
  | rel
deriving DecidableEq, Repr

/-- State transition of one gate operation (the result is discarded). -/
def applyOp (maxActive maxQueue : Int) (s : GateState) : GateOp → GateState
  | .acq w => (acquire maxActive maxQueue s w).2
  | .rel => (release maxActive s).2

/-- Run a sequence of gate operations from a state. -/
def runOps (maxActive maxQueue : Int) (s : GateState) : List GateOp → GateState
  | [] => s
  | op :: ops => runOps maxActive maxQueue (applyOp maxActive maxQueue s op) ops

/-- The state reached from `initState` by iterating `acquire` with waiter
tokens `0, 1, …, k-1`. -/
def acquireN (maxActive maxQueue : Int) : Nat → GateState
  | 0 => initState
  | k + 1 => (acquire maxActive maxQueue (acquireN maxActive maxQueue k) k).2

/-- The outcome of the `(k+1)`-th `acquire` call in that iteration. -/
def acquireRes (maxActive maxQueue : Int) (k : Nat) : AcquireResult :=
  (acquire maxActive maxQueue (acquireN maxActive maxQueue k) k).1

example : acquireN 2 1 2 = ⟨2, []⟩ := by decide
example : acquireN 2 1 3 = ⟨2, [2]⟩ := by decide
example : acquireRes 2 1 3 = .busy := by decide
example : release 2 ⟨2, [2]⟩ = (some 2, ⟨2, []⟩) := by decide
example : release 1 ⟨0, [7]⟩ = (some 7, ⟨1, []⟩) := by decide

/-! ## The gate invariant -/

/-- Inductive invariant of a bounded gate (`0 < maxActive`): `active` stays
within `[0, maxActive]`, a non-empty queue forces `active = maxActive`, and
when the backlog is bounded the queue never exceeds `maxQueue`. -/
def GateInv (maxActive maxQueue : Int) (s : GateState) : Prop :=
  0 ≤ s.active ∧ s.active ≤ maxActive ∧
    (s.queue ≠ [] → s.active = maxActive) ∧
    (0 ≤ maxQueue → (s.queue.length : Int) ≤ maxQueue)

lemma gateInv_init (maxActive maxQueue : Int) (hA : 0 < maxActive) :
    GateInv maxActive maxQueue initState := by
  refine ⟨le_refl 0, le_of_lt hA, ?_, ?_⟩
  · intro h
    exact absurd rfl h
  · intro h
    simpa using h

/-! Unfolding equations for `acquire` and `release`, one per source branch. -/

lemma acquire_unbounded {maxActive maxQueue : Int} (s : GateState)
    (w : Nat) (h : maxActive ≤ 0) :
    acquire maxActive maxQueue s w = (.immediate, s) := by
  simp [acquire, h]

lemma acquire_immediate {maxActive maxQueue : Int} {s : GateState}
    (w : Nat) (h1 : ¬ maxActive ≤ 0) (h2 : s.active < maxActive) :
    acquire maxActive maxQueue s w = (.immediate, { s with active := s.active + 1 }) := by
  simp [acquire, h1, h2]

lemma acquire_busy {maxActive maxQueue : Int} {s : GateState} (w : Nat)
    (h1 : ¬ maxActive ≤ 0) (h2 : ¬ s.active < maxActive)
    (h3 : 0 ≤ maxQueue ∧ maxQueue ≤ (s.queue.length : Int)) :
    acquire maxActive maxQueue s w = (.busy, s) := by
  simp [acquire, h1, h2, h3]

lemma acquire_suspend {maxActive maxQueue : Int} {s : GateState} (w : Nat)
    (h1 : ¬ maxActive ≤ 0) (h2 : ¬ s.active < maxActive)
    (h3 : ¬ (0 ≤ maxQueue ∧ maxQueue ≤ (s.queue.length : Int))) :
    acquire maxActive maxQueue s w = (.suspended, { s with queue := s.queue ++ [w] }) := by
  simp [acquire, h1, h2, h3]

lemma release_unbounded {maxActive : Int} (s : GateState) (h : maxActive ≤ 0) :
    release maxActive s = (none, s) := by
  simp [release, h]

lemma release_nil {maxActive : Int} {s : GateState} (h1 : ¬ maxActive ≤ 0)
    (hq : s.queue = []) :
    release maxActive s =
      (none, ⟨if 0 < s.active then s.active - 1 else s.active, []⟩) := by
  simp [release, h1, hq]

lemma release_cons {maxActive : Int} {s : GateState} {w : Nat} {rest : List Nat}
    (h1 : ¬ maxActive ≤ 0) (hq : s.queue = w :: rest) :
    release maxActive s =
      (some w, ⟨(if 0 < s.active then s.active - 1 else s.active) + 1, rest⟩) := by
  simp [release, h1, hq]

lemma gateInv_applyOp {maxActive maxQueue : Int} (hA : 0 < maxActive)
    {s : GateState} (h : GateInv maxActive maxQueue s) (op : GateOp) :
    GateInv maxActive maxQueue (applyOp maxActive maxQueue s op) := by
  obtain ⟨h0, hle, hq, hlen⟩ := h
  have h1 : ¬ maxActive ≤ 0 := by omega
  cases op with
  | acq w =>
    by_cases h2 : s.active < maxActive
    · rw [applyOp, acquire_immediate w h1 h2]
      dsimp only [GateInv]
      refine ⟨by omega, by omega, ?_, hlen⟩
      intro hne
      exact absurd (hq hne) (by omega)
    · by_cases h3 : 0 ≤ maxQueue ∧ maxQueue ≤ (s.queue.length : Int)
      · rw [applyOp, acquire_busy w h1 h2 h3]
        exact ⟨h0, hle, hq, hlen⟩
      · rw [applyOp, acquire_suspend w h1 h2 h3]
        dsimp only [GateInv]
        push_neg at h3
        refine ⟨h0, hle, fun _ => by omega, ?_⟩
        intro hmq
        have h4 := h3 hmq
        simp only [List.length_append, List.length_cons, List.length_nil]
        push_cast
        omega
  | rel =>
    cases hcase : s.queue with
    | nil =>
      rw [applyOp, release_nil h1 hcase]
      dsimp only [GateInv]
      refine ⟨by split_ifs <;> omega, by split_ifs <;> omega, by simp, by simp⟩
    | cons w rest =>
      have hact : s.active = maxActive := hq (by simp [hcase])
      rw [applyOp, release_cons h1 hcase]
      dsimp only [GateInv]
      have hlq : 0 ≤ maxQueue → ((w :: rest).length : Int) ≤ maxQueue := by
        rw [← hcase]; exact hlen
      refine ⟨by split_ifs <;> omega, by split_ifs <;> omega,
        fun _ => by split_ifs <;> omega, ?_⟩
      intro hmq
      have h5 := hlq hmq
      simp only [List.length_cons] at h5 ⊢
      push_cast at h5 ⊢
      omega

lemma gateInv_runOps {maxActive maxQueue : Int} (hA : 0 < maxActive)
    (ops : List GateOp) :
    ∀ {s : GateState}, GateInv maxActive maxQueue s →
      GateInv maxActive maxQueue (runOps maxActive maxQueue s ops) := by
  induction ops with
  | nil => intro s h; exact h
  | cons op ops ih =>
    intro s h
    exact ih (gateInv_applyOp hA h op)

/-! ## Claim theorems for the gate -/

/-- **C4**: for every bounded gate (`maxActive > 0`, `maxQueue ≥ 0`), every
state reachable from the initial state by any sequence of `acquire` and
`release` calls satisfies `0 ≤ active ≤ maxActive` and
`length queue ≤ maxQueue`. -/
theorem gate_bounded_invariant (maxActive maxQueue : Int) (hA : 0 < maxActive)
    (hQ : 0 ≤ maxQueue) (ops : List GateOp) :
    0 ≤ (runOps maxActive maxQueue initState ops).active ∧
      (runOps maxActive maxQueue initState ops).active ≤ maxActive ∧
      ((runOps maxActive maxQueue initState ops).queue.length : Int) ≤ maxQueue := by
  have h := gateInv_runOps hA ops (gateInv_init maxActive maxQueue hA)
  exact ⟨h.1, h.2.1, h.2.2.2 hQ⟩

theorem gate_bounded_invariant_witness :
    0 ≤ (runOps 2 1 initState [.acq 0, .acq 1, .acq 2, .rel]).active ∧
      (runOps 2 1 initState [.acq 0, .acq 1, .acq 2, .rel]).active ≤ 2 ∧
      ((runOps 2 1 initState [.acq 0, .acq 1, .acq 2, .rel]).queue.length : Int) ≤ 1 :=
  gate_bounded_invariant 2 1 (by norm_num) (by norm_num) [.acq 0, .acq 1, .acq 2, .rel]

/-- **C2**: `acquire` raises the `ResourceExhausted` (`ServiceBusyError`)
condition iff the gate is bounded, all slots are held, the backlog is
bounded and the queue is full; on that failure the state is unchanged (the
caller is not enqueued); and a gate with `maxQueue < 0` never raises it. -/
theorem acquire_busy_iff (maxActive maxQueue : Int) (s : GateState) (w : Nat) :
    ((acquire maxActive maxQueue s w).1 = .busy ↔
      0 < maxActive ∧ maxActive ≤ s.active ∧ 0 ≤ maxQueue ∧
        maxQueue ≤ (s.queue.length : Int)) ∧
    ((acquire maxActive maxQueue s w).1 = .busy →
      (acquire maxActive maxQueue s w).2 = s) ∧
    (maxQueue < 0 → (acquire maxActive maxQueue s w).1 ≠ .busy) := by
  simp only [acquire]
  split_ifs with h1 h2 h3 <;> refine ⟨?_, ?_, ?_⟩ <;> simp_all

theorem acquire_busy_iff_witness :
    (acquire 1 0 ⟨1, []⟩ 5).1 = .busy :=
  ((acquire_busy_iff 1 0 ⟨1, []⟩ 5).1).mpr (by refine ⟨by norm_num, ?_, by norm_num, ?_⟩ <;> simp)

/-- **C6**: a gate constructed with `maxActive ≤ 0` is transparent:
`acquire` always returns immediately with no state change and never
raises, `release` changes no state and resumes nobody, the accessors
always report `0` (never the raw internal counters), and consequently any
sequence of calls leaves the state untouched. -/
theorem unbounded_gate_transparent (maxActive maxQueue : Int) (hA : maxActive ≤ 0) :
    (∀ (s : GateState) (w : Nat), acquire maxActive maxQueue s w = (.immediate, s)) ∧
    (∀ s : GateState, release maxActive s = (none, s)) ∧
    (∀ s : GateState, getQueueSize maxActive s = 0) ∧
    (∀ s : GateState, getActiveCount maxActive s = 0) ∧
    (∀ (s : GateState) (ops : List GateOp), runOps maxActive maxQueue s ops = s) := by
  have hacq : ∀ (s : GateState) (w : Nat),
      acquire maxActive maxQueue s w = (.immediate, s) := by
    intro s w; simp [acquire, hA]
  have hrel : ∀ s : GateState, release maxActive s = (none, s) := by
    intro s; simp [release, hA]
  refine ⟨hacq, hrel, ?_, ?_, ?_⟩
  · intro s; simp [getQueueSize, hA]
  · intro s; simp [getActiveCount, hA]
  · intro s ops
    induction ops generalizing s with
    | nil => rfl
    | cons op ops ih =>
      cases op with
      | acq w => simp only [runOps, applyOp, hacq]; exact ih _
      | rel => simp only [runOps, applyOp, hrel]; exact ih _

theorem unbounded_gate_transparent_witness :
    getActiveCount 0 ⟨3, [4]⟩ = 0 :=
  (unbounded_gate_transparent 0 5 (by norm_num)).2.2.2.1 ⟨3, [4]⟩

/-! ## The fill / queue / reject ladder (C1) -/

lemma gateState_ext {s t : GateState} (h1 : s.active = t.active)
    (h2 : s.queue = t.queue) : s = t := by
  cases s; cases t; simp_all

lemma acquireN_fill (N M : Nat) (hN : 0 < N) :
    ∀ {k : Nat}, k ≤ N → acquireN (N : Int) (M : Int) k = ⟨(k : Int), []⟩ := by
  intro k
  induction k with
  | zero => intro _; rfl
  | succ k ih =>
    intro hk
    have hk' : k < N := hk
    rw [acquireN, ih (le_of_lt hk'),
      acquire_immediate k (by omega)
        (by show (k : Int) < (N : Int); exact_mod_cast hk')]
    refine gateState_ext ?_ rfl
    push_cast
    ring

lemma acquireN_overflow (N M : Nat) (hN : 0 < N) :
    ∀ {j : Nat}, j ≤ M →
      acquireN (N : Int) (M : Int) (N + j) = ⟨(N : Int), List.range' N j⟩ := by
  intro j
  induction j with
  | zero =>
    intro _
    rw [Nat.add_zero, acquireN_fill N M hN (le_refl N)]
    rfl
  | succ j ih =>
    intro hj
    have hj' : j < M := hj
    rw [Nat.add_succ, acquireN, ih (le_of_lt hj'),
      acquire_suspend (N + j) (by omega)
        (by show ¬ (N : Int) < (N : Int); omega)
        (by
          show ¬ (0 ≤ (M : Int) ∧ (M : Int) ≤ ((List.range' N j).length : Int))
          rw [List.length_range']
          omega)]
    refine gateState_ext rfl ?_
    show List.range' N j ++ [N + j] = List.range' N (j + 1)
    simp [List.range'_concat]

/-- **C1**: starting from the initial state of a gate with `maxActive = N > 0`
and `maxQueue = M ≥ 0`, the first `N` `acquire` calls return immediately (no
suspension) leaving `active = N` and an empty queue; the next `M` calls each
suspend and are appended in arrival order, leaving queue
`[N, N+1, …, N+M-1]` of length `M`; and the `(N+M+1)`-th call fails with the
`ResourceExhausted` condition, leaving the state (hence queue length `M`)
unchanged. -/
theorem gate_fill_queue_reject (N M : Nat) (hN : 0 < N) :
    (∀ i < N, acquireRes (N : Int) (M : Int) i = .immediate) ∧
    acquireN (N : Int) (M : Int) N = ⟨(N : Int), []⟩ ∧
    (∀ j < M, acquireRes (N : Int) (M : Int) (N + j) = .suspended) ∧
    acquireN (N : Int) (M : Int) (N + M) = ⟨(N : Int), List.range' N M⟩ ∧
    (List.range' N M).length = M ∧
    acquireRes (N : Int) (M : Int) (N + M) = .busy ∧
    acquireN (N : Int) (M : Int) (N + M + 1) = acquireN (N : Int) (M : Int) (N + M) := by
  have hbusy : acquire (N : Int) (M : Int) ⟨(N : Int), List.range' N M⟩ (N + M) =
      (.busy, ⟨(N : Int), List.range' N M⟩) := by
    refine acquire_busy (N + M) (by omega)
      (by show ¬ (N : Int) < (N : Int); omega) ?_
    show 0 ≤ (M : Int) ∧ (M : Int) ≤ ((List.range' N M).length : Int)
    rw [List.length_range']
    omega
  refine ⟨?_, acquireN_fill N M hN (le_refl N), ?_,
    acquireN_overflow N M hN (le_refl M), List.length_range' .., ?_, ?_⟩
  · intro i hi
    rw [acquireRes, acquireN_fill N M hN (le_of_lt hi),
      acquire_immediate i (by omega)
        (by show (i : Int) < (N : Int); exact_mod_cast hi)]
  · intro j hj
    rw [acquireRes, acquireN_overflow N M hN (le_of_lt hj),
      acquire_suspend (N + j) (by omega)
        (by show ¬ (N : Int) < (N : Int); omega)
        (by
          show ¬ (0 ≤ (M : Int) ∧ (M : Int) ≤ ((List.range' N j).length : Int))
          rw [List.length_range']
          omega)]
  · rw [acquireRes, acquireN_overflow N M hN (le_refl M), hbusy]
  · rw [acquireN, acquireN_overflow N M hN (le_refl M), hbusy]

theorem gate_fill_queue_reject_witness :
    acquireN ((2 : Nat) : Int) ((1 : Nat) : Int) (2 + 1) =
      ⟨((2 : Nat) : Int), List.range' 2 1⟩ :=
  (gate_fill_queue_reject 2 1 (by norm_num)).2.2.2.1

/-! ## FIFO hand-off on release (C3) -/

/-- **C3**: for a bounded gate in any reachable state with a non-empty
queue, one `release()` pops exactly the head waiter (arrival order),
grants it the freed slot so that `active` stays at `maxActive`, and
shortens the queue by exactly one; no other waiter is resumed. -/
theorem release_hands_off_head (maxActive maxQueue : Int) (hA : 0 < maxActive)
    (ops : List GateOp) (w : Nat) (rest : List Nat)
    (hq : (runOps maxActive maxQueue initState ops).queue = w :: rest) :
    release maxActive (runOps maxActive maxQueue initState ops) =
      (some w, ⟨maxActive, rest⟩) := by
  have hinv := gateInv_runOps hA ops (gateInv_init maxActive maxQueue hA)
  have hact : (runOps maxActive maxQueue initState ops).active = maxActive :=
    hinv.2.2.1 (by rw [hq]; simp)
  rw [release_cons (by omega) hq, hact, if_pos hA]
  refine congrArg _ (gateState_ext ?_ rfl)
  show maxActive - 1 + 1 = maxActive
  omega

theorem release_hands_off_head_witness :
    release 1 (runOps 1 1 initState [.acq 0, .acq 1]) = (some 1, ⟨1, []⟩) :=
  release_hands_off_head 1 1 (by norm_num) [.acq 0, .acq 1] 1 [] (by decide)

/-! ## Over-release safety (C5) -/

/-- **C5** as stated is false on an arbitrary state: at the (unreachable)
state `active = 0`, `queue = [7]` of a gate with `maxActive = 1`,
`release()` does pop the queue and does resume a waiter. -/
theorem release_spurious_pop_cex :
    (release 1 ⟨0, [7]⟩).1 ≠ none ∧ (release 1 ⟨0, [7]⟩).2.queue ≠ [7] ∧
      (release 1 ⟨0, [7]⟩).1 = some 7 ∧ (release 1 ⟨0, [7]⟩).2 = ⟨1, []⟩ := by
  decide

/-- **C5 (amended)**: `release()` with `active = 0` never drives `active`
negative; and in every state *reachable from the initial state*, `active = 0`
implies the queue is empty, so there `release()` leaves the gate unchanged
and resumes no waiter.  (On an unreachable state with `active = 0` and a
non-empty queue, `release()` does pop the head waiter.) -/
theorem release_inactive_safe (maxActive maxQueue : Int) :
    (∀ s : GateState, s.active = 0 → 0 ≤ (release maxActive s).2.active) ∧
    (∀ ops : List GateOp,
      (runOps maxActive maxQueue initState ops).active = 0 →
        release maxActive (runOps maxActive maxQueue initState ops) =
          (none, runOps maxActive maxQueue initState ops)) := by
  constructor
  · intro s h0
    by_cases hA : maxActive ≤ 0
    · rw [release_unbounded s hA]
      exact le_of_eq h0.symm
    · cases hcase : s.queue with
      | nil =>
        rw [release_nil hA hcase]
        show 0 ≤ if 0 < s.active then s.active - 1 else s.active
        rw [h0]
        norm_num
      | cons v rest =>
        rw [release_cons hA hcase]
        show 0 ≤ (if 0 < s.active then s.active - 1 else s.active) + 1
        rw [h0]
        norm_num
  · intro ops h0
    by_cases hA : maxActive ≤ 0
    · exact release_unbounded _ hA
    · have hinv := gateInv_runOps (by omega) ops
        (gateInv_init maxActive maxQueue (by omega))
      have hqnil : (runOps maxActive maxQueue initState ops).queue = [] := by
        by_contra hne
        have := hinv.2.2.1 hne
        omega
      have hs : runOps maxActive maxQueue initState ops = (⟨0, []⟩ : GateState) :=
        gateState_ext h0 hqnil
      rw [hs, release_nil hA rfl]
      norm_num

theorem release_inactive_safe_witness :
    release 1 initState = (none, initState) :=
  (release_inactive_safe 1 0).2 [] rfl

/-! ## The /render request handler (index.ts lines 171–221)

The handler's own control flow is embedded; its collaborators
(`normalizeOptions`, `concurrencyGate.acquire`, `render`,
`toBuffer`/`writeFile`/response serialization) are abstracted by a script
recording whether each of them succeeds or throws on this request. -/

/-- Outcomes of the handler's collaborators on one request. -/
structure RenderScript where
  validateOk : Bool
  acqResult : AcquireResult
  renderOk : Bool
  bufferOk : Bool
deriving DecidableEq, Repr

/-- Result of the `try`/`catch` part of the handler (lines 174–214):
whether `acquired` was set, whether `renderResult` was assigned, and the
HTTP status of the response sent.  `normalizeOptions` may throw an
`HttpError` (status 400) before `acquire()` is reached; `acquire()` may
throw `ServiceBusyError` (status 503); `render` may reject before
`renderResult` is assigned; `toBuffer`/`writeFile` may throw after it is
assigned; the `catch` block maps `HttpError`s to their status and anything
else to 500. -/
def renderTryCatch (sc : RenderScript) : Bool × Bool × Nat :=
  if ¬ sc.validateOk then (false, false, 400)
  else
    match sc.acqResult with
    | .busy => (false, false, 503)
    | _ =>
      if ¬ sc.renderOk then (true, false, 500)
      else if ¬ sc.bufferOk then (true, true, 500)
      else (true, true, 200)

/-- The `finally` block (lines 215–220): the number of `release()` calls —
one iff `acquired` was set — and the number of `destroy()` calls — one iff
`renderResult` was assigned (`renderResult?.destroy()`). -/
def renderFinally (acquired handleProduced : Bool) : Nat × Nat :=
  (if acquired then 1 else 0, if handleProduced then 1 else 0)

/-- Observable trace of one `/render` request. -/
structure HandlerTrace where
  acquired : Bool
  handleProduced : Bool
  status : Nat
  releaseCalls : Nat
  destroyCalls : Nat
deriving DecidableEq, Repr

/-- The whole handler: try/catch body followed by the `finally` block. -/
def runRenderHandler (sc : RenderScript) : HandlerTrace :=
  let t := renderTryCatch sc
  let f := renderFinally t.1 t.2.1
  ⟨t.1, t.2.1, t.2.2, f.1, f.2⟩

/-- **C7**: on every execution path of the `/render` handler — success,
validation error, busy rejection, render failure, or any other thrown
error — `release()` is called exactly once iff the handler's `acquire()`
call succeeded (never more than once, never without a successful acquire),
and the rendering-result handle is destroyed exactly when one was
produced, regardless of outcome. -/
theorem render_handler_release_pairing (sc : RenderScript) :
    ((runRenderHandler sc).releaseCalls = 1 ↔
      sc.validateOk = true ∧ sc.acqResult ≠ .busy) ∧
    (runRenderHandler sc).releaseCalls ≤ 1 ∧
    ((runRenderHandler sc).destroyCalls = 1 ↔
      (runRenderHandler sc).handleProduced = true) ∧
    ((runRenderHandler sc).handleProduced = true ↔
      sc.validateOk = true ∧ sc.acqResult ≠ .busy ∧ sc.renderOk = true) := by
  obtain ⟨v, a, r, b⟩ := sc
  cases v <;> cases a <;> cases r <;> cases b <;> decide

/-! ## Worker supervision (index.ts lines 376–409) -/

/-- One `cluster.fork` call, recorded with the `SERVER_WORKER_COUNT` value
the primary propagates into the child's environment. -/
structure ForkCall where
  serverWorkerCount : Nat
deriving DecidableEq, Repr

/-- The `cluster.on('exit', …)` handler of `bootstrap` (lines 388–402).
`code` is the exit status (absent when the worker was killed by a signal)
and `signal` the terminating signal (absent on a normal exit); the result
is the list of fork calls the handler performs. -/
def onWorkerExit (workerCount : Nat) (code : Option Int) (signal : Option String) :
    List ForkCall :=
  let graceful := code == some 0 || signal == some "SIGINT" || signal == some "SIGTERM"
  if graceful then [] else [⟨workerCount⟩]

/-- **C8**: a worker exit with status 0 or by signal SIGINT/SIGTERM spawns
no replacement; every other exit spawns exactly one replacement whose
environment carries the same `SERVER_WORKER_COUNT`. -/
theorem worker_exit_respawn (workerCount : Nat) (code : Option Int)
    (signal : Option String) :
    ((code = some 0 ∨ signal = some "SIGINT" ∨ signal = some "SIGTERM") →
      onWorkerExit workerCount code signal = []) ∧
    (¬ (code = some 0 ∨ signal = some "SIGINT" ∨ signal = some "SIGTERM") →
      onWorkerExit workerCount code signal = [⟨workerCount⟩]) := by
  constructor <;> intro h
  · rcases h with h | h | h <;> simp [onWorkerExit, h]
  · push_neg at h
    simp [onWorkerExit, h.1, h.2.1, h.2.2]

theorem worker_exit_respawn_witness :
    onWorkerExit 4 (some 1) none = [⟨4⟩] :=
  (worker_exit_respawn 4 (some 1) none).2 (by simp)

/-! ## Graceful shutdown (index.ts lines 281–304)

`setupGracefulShutdown` registers a one-shot listener (`process.once`,
line 302) for SIGINT and one for SIGTERM, each running the flag-guarded
`shutdown` closure: on its first call it sets `shuttingDown`, closes the
listener (whose drain callback exits with status 0) and starts a fixed
5-second timer (whose callback also exits with status 0); a later call
returns at the flag check.  Because each listener is one-shot, a second
delivery of the same signal finds no listener any more, and the
platform's default disposition terminates the process — which is not a
`process.exit(0)`.  The events one worker observes — signal deliveries,
the drain callback, the timer firing — are serialized on the event loop,
so the coordinator is a state machine over event sequences; a terminated
process absorbs all further events. -/

/-- The fixed force-exit timeout of lines 296–298, in milliseconds. -/
def shutdownTimeoutMs : Nat := 5000

/-- How the worker process ends: a `process.exit(code)` call, or death by
the default disposition of a signal that no longer has a listener. -/
inductive ProcExit where
  | status (code : Int)
  | signal (s : String)
deriving DecidableEq, Repr

/-- An event observed by the shutdown coordinator: delivery of one of the
two registered signals, the listener's drain callback, or the timer. -/
inductive SdEvent where
  | sigint
  | sigterm
  | drained
  | timeout
deriving DecidableEq, Repr

/-- Coordinator state: the `shuttingDown` flag, whether each
`process.once` listener is still installed, how the process ended (once it
has), and how many times the shutdown sequence (close + timer start) has
run. -/
structure SdState where
  shuttingDown : Bool
  sigintOnce : Bool
  sigtermOnce : Bool
  finished : Option ProcExit
  triggerCount : Nat
deriving DecidableEq, Repr

/-- State right after `setupGracefulShutdown` (lines 301–303): flag clear,
both one-shot listeners installed. -/
def sdInit : SdState := ⟨false, true, true, none, 0⟩

/-- One event of the shutdown coordinator.  A signal whose one-shot
listener is still installed consumes that listener and runs `shutdown`
(lines 285–299), which returns at once when `shuttingDown` is already set
and otherwise sets it, triggering close + timer; a signal whose listener
is gone terminates the process by default disposition; the drained
callback and the timer callback each run `process.exit(0)` — they only
exist once shutdown was triggered. -/
def sdStep (st : SdState) : SdEvent → SdState
  | e =>
    if st.finished.isSome then st
    else
      match e with
      | .sigint =>
        if st.sigintOnce then
          if st.shuttingDown then { st with sigintOnce := false }
          else
            { st with sigintOnce := false, shuttingDown := true, triggerCount := st.triggerCount + 1 }
        else { st with finished := some (.signal "SIGINT") }
      | .sigterm =>
        if st.sigtermOnce then
          if st.shuttingDown then { st with sigtermOnce := false }
          else
            { st with sigtermOnce := false, shuttingDown := true, triggerCount := st.triggerCount + 1 }
        else { st with finished := some (.signal "SIGTERM") }
      | .drained =>
        if st.shuttingDown then { st with finished := some (.status 0) } else st
      | .timeout =>
        if st.shuttingDown then { st with finished := some (.status 0) } else st

def sdRun (st : SdState) : List SdEvent → SdState
  | [] => st
  | e :: es => sdRun (sdStep st e) es

lemma sdStep_frozen {st : SdState} (h : st.finished.isSome) (e : SdEvent) :
    sdStep st e = st := by
  simp [sdStep, h]

lemma sdRun_frozen (es : List SdEvent) :
    ∀ {st : SdState}, st.finished.isSome → sdRun st es = st := by
  induction es with
  | nil => intro st _; rfl
  | cons e es ih =>
    intro st h
    rw [sdRun, sdStep_frozen h, ih h]

lemma sdRun_append (evs more : List SdEvent) :
    ∀ st : SdState, sdRun st (evs ++ more) = sdRun (sdRun st evs) more := by
  induction evs with
  | nil => intro st; rfl
  | cons e es ih => intro st; rw [List.cons_append, sdRun, sdRun, ih]

/-- Inductive invariant of the shutdown coordinator. -/
def SdInv (st : SdState) : Prop :=
  st.triggerCount ≤ 1 ∧ (st.shuttingDown = true ↔ st.triggerCount = 1) ∧
    (∀ k, st.finished = some (.status k) → k = 0 ∧ st.shuttingDown = true)

lemma sdInv_init : SdInv sdInit := by
  refine ⟨by simp [sdInit], by simp [sdInit], ?_⟩
  intro k hk
  simp [sdInit] at hk

lemma sdInv_step {st : SdState} (h : SdInv st) (e : SdEvent) :
    SdInv (sdStep st e) := by
  obtain ⟨h1, h2, h3⟩ := h
  by_cases hex : st.finished.isSome
  · rw [sdStep_frozen hex]
    exact ⟨h1, h2, h3⟩
  · cases e with
    | sigint =>
      simp only [sdStep, if_neg hex]
      by_cases ho : st.sigintOnce = true
      · rw [if_pos ho]
        by_cases hs : st.shuttingDown = true
        · rw [if_pos hs]
          exact ⟨h1, h2, h3⟩
        · rw [if_neg hs]
          have hcnt : st.triggerCount ≠ 1 := fun hc => hs (h2.mpr hc)
          refine ⟨by dsimp; omega, ⟨fun _ => by dsimp; omega, fun _ => rfl⟩, ?_⟩
          intro k hk
          exact ⟨(h3 k hk).1, rfl⟩
      · rw [if_neg ho]
        refine ⟨h1, h2, ?_⟩
        intro k hk
        simp at hk
    | sigterm =>
      simp only [sdStep, if_neg hex]
      by_cases ho : st.sigtermOnce = true
      · rw [if_pos ho]
        by_cases hs : st.shuttingDown = true
        · rw [if_pos hs]
          exact ⟨h1, h2, h3⟩
        · rw [if_neg hs]
          have hcnt : st.triggerCount ≠ 1 := fun hc => hs (h2.mpr hc)
          refine ⟨by dsimp; omega, ⟨fun _ => by dsimp; omega, fun _ => rfl⟩, ?_⟩
          intro k hk
          exact ⟨(h3 k hk).1, rfl⟩
      · rw [if_neg ho]
        refine ⟨h1, h2, ?_⟩
        intro k hk
        simp at hk
    | drained =>
      simp only [sdStep, if_neg hex]
      by_cases hs : st.shuttingDown = true
      · rw [if_pos hs]
        refine ⟨h1, h2, ?_⟩
        intro k hk
        simp only [Option.some.injEq, ProcExit.status.injEq] at hk
        exact ⟨hk.symm, hs⟩
      · rw [if_neg hs]
        exact ⟨h1, h2, h3⟩
    | timeout =>
      simp only [sdStep, if_neg hex]
      by_cases hs : st.shuttingDown = true
      · rw [if_pos hs]
        refine ⟨h1, h2, ?_⟩
        intro k hk
        simp only [Option.some.injEq, ProcExit.status.injEq] at hk
        exact ⟨hk.symm, hs⟩
      · rw [if_neg hs]
        exact ⟨h1, h2, h3⟩

lemma sdInv_run (evs : List SdEvent) :
    ∀ {st : SdState}, SdInv st → SdInv (sdRun st evs) := by
  induction evs with
  | nil => intro st h; exact h
  | cons e es ih => intro st h; exact ih (sdInv_step h e)

/-- **C9** as stated is false on the code: after a first SIGINT has
triggered shutdown, a second SIGINT is not ignored — its `process.once`
listener is already consumed, so the default disposition terminates the
process, and that termination is not an exit with status 0. -/
theorem shutdown_second_sigint_kills_cex :
    sdRun sdInit [.sigint, .sigint] =
      ⟨true, false, true, some (.signal "SIGINT"), 1⟩ ∧
    sdStep (sdStep sdInit .sigint) .sigint ≠ sdStep sdInit .sigint ∧
    (sdRun sdInit [.sigint, .sigint]).finished ≠ some (.status 0) := by
  decide

/-- **C9 (amended)**: the `shuttingDown` flag is set exactly once — the
first recognized signal triggers the shutdown sequence, and no later event
ever re-runs it.  A later delivery of the other recognized signal, whose
one-shot listener is still installed, is ignored apart from consuming that
listener (`shutdown` returns at the flag); but a repeated delivery of the
same signal finds no listener (`process.once`) and the default disposition
terminates the process, which is not a status-0 exit.  Once triggered, the
drain callback and the fixed 5000 ms timeout each end the process with
status 0 the moment they fire, so whichever comes first decides; after the
process has ended no event changes anything; and every `process.exit` the
coordinator performs carries status 0. -/
theorem shutdown_once_drain_or_timeout :
    (sdStep sdInit .sigint = ⟨true, false, true, none, 1⟩ ∧
      sdStep sdInit .sigterm = ⟨true, true, false, none, 1⟩) ∧
    (∀ evs, (sdRun sdInit evs).triggerCount ≤ 1) ∧
    (∀ (st : SdState) (e : SdEvent), st.shuttingDown = true →
      (sdStep st e).triggerCount = st.triggerCount) ∧
    (∀ st : SdState, st.finished = none → st.shuttingDown = true →
      (st.sigintOnce = true → sdStep st .sigint = { st with sigintOnce := false }) ∧
      (st.sigtermOnce = true → sdStep st .sigterm = { st with sigtermOnce := false })) ∧
    (∀ st : SdState, st.finished = none →
      (st.sigintOnce = false →
        sdStep st .sigint = { st with finished := some (.signal "SIGINT") }) ∧
      (st.sigtermOnce = false →
        sdStep st .sigterm = { st with finished := some (.signal "SIGTERM") })) ∧
    (∀ st : SdState, st.finished = none → st.shuttingDown = true →
      sdStep st .drained = { st with finished := some (.status 0) } ∧
      sdStep st .timeout = { st with finished := some (.status 0) }) ∧
    (∀ evs more, (sdRun sdInit evs).finished.isSome →
      sdRun sdInit (evs ++ more) = sdRun sdInit evs) ∧
    (∀ evs k, (sdRun sdInit evs).finished = some (.status k) →
      k = 0 ∧ (sdRun sdInit evs).shuttingDown = true) ∧
    shutdownTimeoutMs = 5000 := by
  refine ⟨⟨by decide, by decide⟩, ?_, ?_, ?_, ?_, ?_, ?_, ?_, rfl⟩
  · intro evs
    exact (sdInv_run evs sdInv_init).1
  · intro st e h
    by_cases hex : st.finished.isSome
    · rw [sdStep_frozen hex]
    · cases e <;> simp only [sdStep, if_neg hex] <;> split_ifs <;> simp_all
  · intro st h0 h1
    have hex : ¬ st.finished.isSome = true := by simp [h0]
    constructor <;> intro h2 <;> simp only [sdStep, if_neg hex] <;>
      rw [if_pos h2, if_pos h1]
  · intro st h0
    have hex : ¬ st.finished.isSome = true := by simp [h0]
    constructor <;> intro h2 <;> simp only [sdStep, if_neg hex] <;>
      rw [if_neg (by simp [h2])]
  · intro st h0 h1
    have hex : ¬ st.finished.isSome = true := by simp [h0]
    constructor <;> simp only [sdStep, if_neg hex] <;> rw [if_pos h1]
  · intro evs more hex
    rw [sdRun_append, sdRun_frozen more hex]
  · intro evs k hk
    exact (sdInv_run evs sdInv_init).2.2 k hk

theorem shutdown_once_drain_or_timeout_witness :
    sdStep ⟨true, false, true, none, 1⟩ SdEvent.drained =
      ⟨true, false, true, some (.status 0), 1⟩ :=
  (shutdown_once_drain_or_timeout.2.2.2.2.2.1 ⟨true, false, true, none, 1⟩ rfl rfl).1


/-! ## normalizeOptions (index.ts lines 306–335)

The request body is the output of `express.json`, i.e. a parsed JSON
value.  In JavaScript, `typeof x === 'object'` holds for plain objects,
arrays and `null`; the guard `!body || typeof body !== 'object'` therefore
rejects exactly the values that are not non-null objects (arrays
included).  JSON.parse output has no `undefined` values and (after parse)
no duplicate keys, so object fields are modelled as a key-unique
association list and `hasOwnProperty` agrees with field lookup. -/

/-- A parsed JSON value. -/
inductive JVal where
  | null
  | bool (b : Bool)
  | num (n : Int)
  | str (s : String)
  | arr (elems : List JVal)
  | obj (fields : List (String × JVal))

/-- Property access on an association list of object fields. -/
def lookupField : List (String × JVal) → String → Option JVal
  | [], _ => none
  | (k, v) :: rest, key => if k = key then some v else lookupField rest key

/-- JavaScript property access `x[key]` (for the keys used here, `none`
models `undefined`; arrays have no such string-keyed own properties). -/
def getField : JVal → String → Option JVal
  | .obj fs, key => lookupField fs key
  | _, _ => none

/-- `Object.prototype.hasOwnProperty.call(x, key)`. -/
def hasOwnField (j : JVal) (key : String) : Bool :=
  (getField j key).isSome

/-- `x !== null && typeof x === 'object'` (arrays are objects). -/
def isNonNullObject : JVal → Bool
  | .obj _ => true
  | .arr _ => true
  | _ => false

/-- The data carried by a thrown `HttpError` that matters here: its HTTP
status and its machine-readable code. -/
structure HttpErrorData where
  status : Int
  code : String
deriving DecidableEq, Repr

/-- The error every `throw` in `normalizeOptions` raises:
`new HttpError('缺少必要的参数: type 或 data', 400, 'invalid_request')`. -/
def invalidRequest : HttpErrorData := ⟨400, "invalid_request"⟩

/-- The condition of line 326, `typeof options.type === 'string' &&
options.type.trim().length !== 0` (the negation of that line's throw
condition). -/
def typeIsNonEmptyString (c : JVal) : Bool :=
  match getField c "type" with
  | some (.str t) => !(t.trim.length == 0)
  | _ => false

/-- Lines 312–318 of `normalizeOptions`: `hasNestedOptions` and the
selected `candidate`. -/
def candidateOf (body : JVal) : JVal :=
  if hasOwnField body "options" &&
      (match getField body "options" with
       | some v => isNonNullObject v
       | none => false) then
    (getField body "options").getD body
  else body

/-- `normalizeOptions` (index.ts lines 306–335). -/
def normalizeOptions (body : JVal) : Except HttpErrorData JVal :=
  if ¬ isNonNullObject body then .error invalidRequest
  else
    let candidate := candidateOf body
    if ¬ isNonNullObject candidate then .error invalidRequest
    else if ¬ typeIsNonEmptyString candidate then .error invalidRequest
    else if ¬ hasOwnField candidate "data" then .error invalidRequest
    else .ok candidate

/-- The candidate the claim says is selected: the nested `options` value
when that property exists and is a non-null object, else the body itself. -/
def selectedCandidate (body : JVal) : JVal :=
  match getField body "options" with
  | some v => if isNonNullObject v then v else body
  | none => body

/-- The claim's acceptance condition on the selected candidate: it is a
non-null object, its `type` field is a string that is non-empty after
trimming, and it has an own `data` property. -/
def claimAccepts (c : JVal) : Bool :=
  isNonNullObject c && typeIsNonEmptyString c && hasOwnField c "data"

example : normalizeOptions (.num 5) = .error invalidRequest := rfl
example : normalizeOptions .null = .error invalidRequest := rfl
example : normalizeOptions (.obj [("type", .str "line")]) = .error invalidRequest := by
  simp [normalizeOptions, candidateOf, hasOwnField, getField, lookupField,
    isNonNullObject, typeIsNonEmptyString]

lemma candidateOf_eq_selected (body : JVal) :
    candidateOf body = selectedCandidate body := by
  unfold candidateOf selectedCandidate hasOwnField
  cases h : getField body "options" with
  | none => simp
  | some v => cases hv : isNonNullObject v <;> simp [hv]

/-- **C10**: `normalizeOptions` selects the nested `options` value when that
property exists and is a non-null object and the body itself otherwise; it
throws an `HttpError` with status 400 and code `invalid_request` exactly
when the selected candidate is not a non-null object, or its `type` field
is not a string that is non-empty after trimming, or it lacks an own
`data` property; otherwise it returns the selected candidate unchanged. -/
theorem normalizeOptions_selects_and_validates (body : JVal) :
    normalizeOptions body =
      if claimAccepts (selectedCandidate body) then .ok (selectedCandidate body)
      else .error ⟨400, "invalid_request"⟩ := by
  by_cases hb : isNonNullObject body = true
  · show (if ¬ isNonNullObject body then Except.error invalidRequest else _) = _
    rw [if_neg (by simp [hb])]
    show (if ¬ isNonNullObject (candidateOf body) then Except.error invalidRequest
      else if ¬ typeIsNonEmptyString (candidateOf body) then Except.error invalidRequest
      else if ¬ hasOwnField (candidateOf body) "data" then Except.error invalidRequest
      else Except.ok (candidateOf body)) = _
    rw [candidateOf_eq_selected]
    rcases h1 : isNonNullObject (selectedCandidate body) <;>
      rcases h2 : typeIsNonEmptyString (selectedCandidate body) <;>
      rcases h3 : hasOwnField (selectedCandidate body) "data" <;>
      simp [claimAccepts, h1, h2, h3, invalidRequest]
  · have hsel : selectedCandidate body = body := by
      cases body <;> simp_all [isNonNullObject, getField, selectedCandidate]
    have hmodel : normalizeOptions body = .error invalidRequest := by
      simp [normalizeOptions, hb]
    rw [hmodel, hsel, if_neg (by simp [claimAccepts, hb])]
    rfl

end GptVisSsr
